import Mathlib

/-!
Shallow embedding of `src/complexity/generator.py`: the string-pair
generator (`StringGenerator`) and the random-graph generator
(`GraphGenerator`).

Python's implicit global PRNG (`random`) is modelled as an explicit
entropy stream: an infinite sequence of natural numbers together with a
read position.  Each primitive draw of the `random` module consumes one
element of the stream:
  * `random.randint(low, high)` maps the drawn value `n` to
    `low + n % (high - low + 1)` when `high ≥ low`, and raises
    (`Except.error`) when the range is empty, exactly as CPython does;
  * `random.choice(seq)` / each draw of `random.choices(seq, k)` maps
    `n` to `seq[n % len(seq)]`, and raises on an empty sequence;
  * the real-valued comparison `random.random() < 0.3` (the graph
    sparsity trial) is modelled as a Boolean drawn from the stream
    (`n % 10 < 3`); no claim depends on the numeric probability, only on
    the trial being an independent draw from the shared stream.
All fallible Python operations return `Except String`.
-/

/-- An infinite entropy stream: the values the global PRNG will produce. -/
def Entropy : Type := Nat → Nat

/-- The state of the global random source: its stream and read position. -/
structure RState where
  entropy : Entropy
  pos : Nat

/-- Consume one value from the entropy stream. -/
def draw (s : RState) : Nat × RState :=
  (s.entropy s.pos, ⟨s.entropy, s.pos + 1⟩)

/-- Model of Python `random.randint(low, high)`: uniform on `[low, high]`,
raising `ValueError` when `high < low` (empty range). -/
def randint (low high : Int) (s : RState) : Except String (Int × RState) :=
  if high < low then
    .error "empty range for randrange()"
  else
    .ok (low + ((draw s).1 : Int) % (high - low + 1), (draw s).2)

/-- Model of Python `random.choice(seq)`: a uniform element of `seq`,
raising `IndexError` on an empty sequence. -/
def pyChoice (l : List Char) (s : RState) : Except String (Char × RState) :=
  if h : l.length = 0 then
    .error "Cannot choose from an empty sequence"
  else
    .ok (l.get ⟨(draw s).1 % l.length, Nat.mod_lt _ (Nat.pos_of_ne_zero h)⟩,
         (draw s).2)

/-- Model of Python `random.choices(population, k=k)`: `k` independent
uniform draws with replacement (empty list when `k = 0`, even for an
empty population, as in CPython). -/
def pyChoices (l : List Char) (k : Nat) (s : RState) :
    Except String (List Char × RState) :=
  match k with
  | 0 => .ok ([], s)
  | k + 1 =>
    match pyChoice l s with
    | .error e => .error e
    | .ok (c, s1) =>
      match pyChoices l k s1 with
      | .error e => .error e
      | .ok (rest, s2) => .ok (c :: rest, s2)

/-- Model of the graph generator's sparsity trial
`random.random() < 0.3`: one Boolean drawn from the entropy stream. -/
def bernoulliTrial (s : RState) : Bool × RState :=
  ((draw s).1 % 10 < 3, (draw s).2)

/-- Embedding of the `StringGenerator` class: its only attribute. -/
structure StringGenerator where
  alphabet : List Char

/-- Embedding of `StringGenerator.__init__`: the Python default
`alphabet: list[str] = None` is `none`; `alphabet if alphabet else
['A', 'B', 'C']` replaces both `None` and the empty list (falsy) by the
default alphabet. -/
def StringGenerator.init (alphabet : Option (List Char)) : StringGenerator :=
  ⟨match alphabet with
   | none => ['A', 'B', 'C']
   | some l => if l.isEmpty then ['A', 'B', 'C'] else l⟩

/-- Embedding of `StringGenerator.generate`:
`''.join(random.choices(self.alphabet, k=size))`.  A string is a list of
characters; `range`-like truncation of a negative `size` to zero draws
matches CPython (`random.choices` with non-positive `k` returns `[]`). -/
def StringGenerator.generate (g : StringGenerator) (size : Int) (s : RState) :
    Except String (List Char × RState) :=
  pyChoices g.alphabet size.toNat s

/-- One iteration of the mutation loop in `generate_pair`:
`idx = random.randint(0, len(str2) - 1); str2[idx] = random.choice(self.alphabet)`. -/
def mutStep (alphabet : List Char) (l : List Char) (s : RState) :
    Except String (List Char × RState) :=
  match randint 0 ((l.length : Int) - 1) s with
  | .error e => .error e
  | .ok (idx, s1) =>
    match pyChoice alphabet s1 with
    | .error e => .error e
    | .ok (c, s2) => .ok (l.set idx.toNat c, s2)

/-- The mutation loop `for _ in range(k): ...` of `generate_pair`,
run for `k` iterations on the evolving copy `str2`. -/
def mutLoop (alphabet : List Char) (k : Nat) (l : List Char) (s : RState) :
    Except String (List Char × RState) :=
  match k with
  | 0 => .ok (l, s)
  | k + 1 =>
    match mutStep alphabet l s with
    | .error e => .error e
    | .ok (l', s') => mutLoop alphabet k l' s'

/-- Embedding of `StringGenerator.generate_pair(len1, len2, similar)`:
`str1 = self.generate(len1)`; in the similar branch a mutation count is
drawn by `random.randint(1, len1 // 3)` (Python floor division, hence
`Int.fdiv`) and that many mutation steps are applied to a copy of
`str1`; otherwise `str2 = self.generate(len2)`. -/
def StringGenerator.generate_pair (g : StringGenerator) (len1 len2 : Int)
    (similar : Bool) (s : RState) :
    Except String ((List Char × List Char) × RState) :=
  match g.generate len1 s with
  | .error e => .error e
  | .ok (str1, s1) =>
    if similar then
      match randint 1 (Int.fdiv len1 3) s1 with
      | .error e => .error e
      | .ok (k, s2) =>
        match mutLoop g.alphabet k.toNat str1 s2 with
        | .error e => .error e
        | .ok (str2, s3) => .ok ((str1, str2), s3)
    else
      match g.generate len2 s1 with
      | .error e => .error e
      | .ok (str2, s2) => .ok ((str1, str2), s2)

/-- Hamming distance of two equal-length strings (positions where they
differ); extra positions of the longer string are not counted. -/
def hamming : List Char → List Char → Nat
  | x :: xs, y :: ys => (if x = y then 0 else 1) + hamming xs ys
  | _, _ => 0

/-- The produced graph artifact: node list, edge list `(u, v, weight)`
in insertion order, and which container (`nx.DiGraph` vs `nx.Graph`)
holds it. -/
structure Graph where
  nodes : List Nat
  edges : List (Nat × Nat × Int)
  directed : Bool
deriving DecidableEq

/-- Embedding of the `GraphGenerator` class: its constructor
configuration, immutable afterwards. -/
structure GraphGenerator where
  directed : Bool
  weighted : Bool

/-- The edge-weight expression
`random.randint(1, 10) if self.weighted else 1`: the PRNG is consulted
only in the weighted case. -/
def drawWeight (weighted : Bool) (s : RState) : Except String (Int × RState) :=
  if weighted then randint 1 10 s else .ok (1, s)

/-- The inner loop `for j in range(i + 1, size)` of
`GraphGenerator.generate`: one sparsity trial per candidate pair, and on
success an edge `(i, j, weight)` is appended. -/
def innerLoop (weighted : Bool) (i : Nat) :
    List Nat → List (Nat × Nat × Int) → RState →
    Except String (List (Nat × Nat × Int) × RState)
  | [], acc, s => .ok (acc, s)
  | j :: rest, acc, s =>
    if (bernoulliTrial s).1 then
      match drawWeight weighted (bernoulliTrial s).2 with
      | .error e => .error e
      | .ok (w, s2) => innerLoop weighted i rest (acc ++ [(i, j, w)]) s2
    else
      innerLoop weighted i rest acc (bernoulliTrial s).2

/-- The outer loop `for i in range(size)` of `GraphGenerator.generate`;
`range(i + 1, size)` is `List.range' (i + 1) (size - (i + 1))`. -/
def outerLoop (weighted : Bool) (n : Nat) :
    List Nat → List (Nat × Nat × Int) → RState →
    Except String (List (Nat × Nat × Int) × RState)
  | [], acc, s => .ok (acc, s)
  | i :: rest, acc, s =>
    match innerLoop weighted i (List.range' (i + 1) (n - (i + 1))) acc s with
    | .error e => .error e
    | .ok (acc', s') => outerLoop weighted n rest acc' s'

/-- Embedding of `GraphGenerator.generate(size)`: fresh container of the
configured directedness, nodes `range(size)` (empty for negative
`size`, as for Python `range`), then the pair loops. -/
def GraphGenerator.generate (g : GraphGenerator) (size : Int) (s : RState) :
    Except String (Graph × RState) :=
  match outerLoop g.weighted size.toNat (List.range size.toNat) [] s with
  | .error e => .error e
  | .ok (es, s') => .ok (⟨List.range size.toNat, es, g.directed⟩, s')

/-- A chain in an edge list: `isChain E u l` holds when consecutive
nodes of `u :: l` are all joined by an edge of `E` (in direction). -/
def isChain (E : List (Nat × Nat × Int)) : Nat → List Nat → Prop
  | _, [] => True
  | u, v :: rest => (∃ w, (u, v, w) ∈ E) ∧ isChain E v rest

/-- A directed cycle: a nonempty chain leading from some node back to
itself. -/
def hasCycle (E : List (Nat × Nat × Int)) : Prop :=
  ∃ u l, isChain E u (l ++ [u])

/-- A fixed all-zeros entropy stream, used for concrete evaluations. -/
def e0 : Entropy := fun _ => 0

/-- The random source freshly seeded on the all-zeros stream. -/
def rs0 : RState := ⟨e0, 0⟩

/-! ### Basic facts about the random primitives -/

theorem init_alphabet_ne_nil (a : Option (List Char)) :
    (StringGenerator.init a).alphabet ≠ [] := by
  cases a with
  | none => simp [StringGenerator.init]
  | some l =>
    by_cases h : l.isEmpty
    · simp [StringGenerator.init, h]
    · simp only [StringGenerator.init, if_neg h]
      intro hnil
      subst hnil
      simp at h

theorem randint_ok_bounds {low high : Int} {s s' : RState} {k : Int}
    (h : randint low high s = .ok (k, s')) : low ≤ k ∧ k ≤ high := by
  unfold randint at h
  split at h
  · simp at h
  · next hlt =>
    push_neg at hlt
    simp only [Except.ok.injEq, Prod.mk.injEq] at h
    obtain ⟨hk, _⟩ := h
    have hpos : (0 : Int) < high - low + 1 := by omega
    have h1 : 0 ≤ ((draw s).1 : Int) % (high - low + 1) :=
      Int.emod_nonneg _ (by omega)
    have h2 : ((draw s).1 : Int) % (high - low + 1) < high - low + 1 :=
      Int.emod_lt_of_pos _ hpos
    omega

theorem randint_total {low high : Int} (hle : low ≤ high) (s : RState) :
    ∃ k s', randint low high s = .ok (k, s') := by
  refine ⟨low + ((draw s).1 : Int) % (high - low + 1), (draw s).2, ?_⟩
  unfold randint
  rw [if_neg (by omega)]

theorem randint_err {low high : Int} (hlt : high < low) (s : RState) :
    randint low high s = .error "empty range for randrange()" := by
  unfold randint
  rw [if_pos hlt]

theorem randint_surj {low high k : Int} (h1 : low ≤ k) (h2 : k ≤ high) :
    ∃ s s', randint low high s = .ok (k, s') := by
  refine ⟨⟨fun _ => (k - low).toNat, 0⟩, ⟨fun _ => (k - low).toNat, 1⟩, ?_⟩
  unfold randint
  rw [if_neg (by omega)]
  simp only [draw]
  have ht : (((k - low).toNat : Nat) : Int) % (high - low + 1) = k - low := by
    rw [Int.toNat_of_nonneg (by omega)]
    exact Int.emod_eq_of_lt (by omega) (by omega)
  rw [ht]
  have hk : low + (k - low) = k := by omega
  rw [hk]

theorem pyChoice_ok {l : List Char} {s s' : RState} {c : Char}
    (h : pyChoice l s = .ok (c, s')) : c ∈ l := by
  unfold pyChoice at h
  split at h
  · simp at h
  · simp only [Except.ok.injEq, Prod.mk.injEq] at h
    obtain ⟨hc, _⟩ := h
    exact hc ▸ List.get_mem _ _ _

theorem pyChoice_total {l : List Char} (hne : l ≠ []) (s : RState) :
    ∃ c s', pyChoice l s = .ok (c, s') := by
  have h0 : ¬ l.length = 0 := by simpa [List.length_eq_zero] using hne
  refine ⟨l.get ⟨(draw s).1 % l.length, Nat.mod_lt _ (Nat.pos_of_ne_zero h0)⟩,
    (draw s).2, ?_⟩
  unfold pyChoice
  rw [dif_neg h0]

theorem pyChoices_ok {l : List Char} :
    ∀ {k : Nat} {s s' : RState} {r : List Char},
    pyChoices l k s = .ok (r, s') → r.length = k ∧ ∀ c ∈ r, c ∈ l := by
  intro k
  induction k with
  | zero =>
    intro s s' r h
    simp only [pyChoices, Except.ok.injEq, Prod.mk.injEq] at h
    obtain ⟨hr, _⟩ := h
    simp [← hr]
  | succ k ih =>
    intro s s' r h
    simp only [pyChoices] at h
    split at h
    · simp at h
    · next c s1 heq1 =>
      split at h
      · simp at h
      · next rest s2 heq2 =>
        simp only [Except.ok.injEq, Prod.mk.injEq] at h
        obtain ⟨hr, _⟩ := h
        obtain ⟨hlen, hmem⟩ := ih heq2
        subst hr
        refine ⟨by simp [hlen], ?_⟩
        intro x hx
        rcases List.mem_cons.mp hx with hx | hx
        · exact hx ▸ pyChoice_ok heq1
        · exact hmem x hx

theorem pyChoices_total {l : List Char} (hne : l ≠ []) :
    ∀ (k : Nat) (s : RState), ∃ r s', pyChoices l k s = .ok (r, s') := by
  intro k
  induction k with
  | zero => intro s; exact ⟨[], s, rfl⟩
  | succ k ih =>
    intro s
    obtain ⟨c, s1, hc⟩ := pyChoice_total hne s
    obtain ⟨r, s2, hr⟩ := ih s1
    exact ⟨c :: r, s2, by simp only [pyChoices, hc, hr]⟩

theorem generate_ok {g : StringGenerator} {size : Int} {s s' : RState}
    {r : List Char} (h : g.generate size s = .ok (r, s')) :
    r.length = size.toNat ∧ ∀ c ∈ r, c ∈ g.alphabet :=
  pyChoices_ok h

theorem generate_total {g : StringGenerator} (hne : g.alphabet ≠ [])
    (size : Int) (s : RState) :
    ∃ r s', g.generate size s = .ok (r, s') ∧ r.length = size.toNat := by
  obtain ⟨r, s', h⟩ := pyChoices_total hne size.toNat s
  exact ⟨r, s', h, (pyChoices_ok h).1⟩

/-! ### Facts about the mutation loop -/

theorem hamming_self (l : List Char) : hamming l l = 0 := by
  induction l with
  | nil => rfl
  | cons x xs ih => simp [hamming, ih]

theorem hamming_set (orig : List Char) :
    ∀ (l : List Char) (i : Nat) (c : Char),
    hamming orig (l.set i c) ≤ hamming orig l + 1 := by
  induction orig with
  | nil => intro l i c; simp [hamming]
  | cons x xs ih =>
    intro l i c
    cases l with
    | nil => exact Nat.zero_le _
    | cons y ys =>
      cases i with
      | zero =>
        simp only [List.set_cons_zero, hamming]
        split_ifs <;> omega
      | succ i =>
        simp only [List.set_cons_succ, hamming]
        have := ih ys i c
        split_ifs <;> omega

theorem mutStep_ok {A l l' : List Char} {s s' : RState}
    (h : mutStep A l s = .ok (l', s')) :
    ∃ i c, c ∈ A ∧ l' = l.set i c := by
  unfold mutStep at h
  split at h
  · simp at h
  · next idx s1 heq1 =>
    split at h
    · simp at h
    · next c s2 heq2 =>
      simp only [Except.ok.injEq, Prod.mk.injEq] at h
      obtain ⟨hl, _⟩ := h
      exact ⟨idx.toNat, c, pyChoice_ok heq2, hl.symm⟩

theorem mutStep_total {A l : List Char} (hA : A ≠ []) (hl : l ≠ [])
    (s : RState) : ∃ l' s', mutStep A l s = .ok (l', s') := by
  have hlen : 0 < l.length := List.length_pos.mpr hl
  obtain ⟨idx, s1, hidx⟩ :=
    randint_total (show (0 : Int) ≤ (l.length : Int) - 1 by omega) s
  obtain ⟨c, s2, hc⟩ := pyChoice_total hA s1
  exact ⟨l.set idx.toNat c, s2, by simp only [mutStep, hidx, hc]⟩

theorem mutLoop_ok {A : List Char} :
    ∀ {k : Nat} {l l' : List Char} {s s' : RState},
    mutLoop A k l s = .ok (l', s') →
    l'.length = l.length ∧
    (∀ orig, hamming orig l' ≤ hamming orig l + k) ∧
    (∀ P : Char → Prop, (∀ c ∈ l, P c) → (∀ c ∈ A, P c) → ∀ c ∈ l', P c) := by
  intro k
  induction k with
  | zero =>
    intro l l' s s' h
    simp only [mutLoop, Except.ok.injEq, Prod.mk.injEq] at h
    obtain ⟨hl, _⟩ := h
    subst hl
    exact ⟨rfl, fun orig => Nat.le_add_right _ _, fun P hP _ => hP⟩
  | succ k ih =>
    intro l l' s s' h
    simp only [mutLoop] at h
    split at h
    · simp at h
    · next lmid smid heq =>
      obtain ⟨i, c, hcA, hset⟩ := mutStep_ok heq
      obtain ⟨ihlen, ihham, ihmem⟩ := ih h
      subst hset
      refine ⟨by simp [ihlen], ?_, ?_⟩
      · intro orig
        have h1 := ihham orig
        have h2 := hamming_set orig l i c
        omega
      · intro P hlP hAP
        refine ihmem P ?_ hAP
        intro x hx
        rcases List.mem_or_eq_of_mem_set hx with hx | hx
        · exact hlP x hx
        · exact hx ▸ hAP c hcA

theorem mutLoop_total {A : List Char} (hA : A ≠ []) :
    ∀ (k : Nat) {l : List Char}, l ≠ [] → ∀ (s : RState),
    ∃ l' s', mutLoop A k l s = .ok (l', s') := by
  intro k
  induction k with
  | zero => intro l _ s; exact ⟨l, s, rfl⟩
  | succ k ih =>
    intro l hl s
    obtain ⟨lmid, smid, hstep⟩ := mutStep_total hA hl s
    obtain ⟨i, c, _, hset⟩ := mutStep_ok hstep
    have hmid : lmid ≠ [] := by
      subst hset
      intro hcon
      exact hl (by simpa using congrArg List.length hcon)
    obtain ⟨l', s', hloop⟩ := ih hmid smid
    exact ⟨l', s', by simp only [mutLoop, hstep, hloop]⟩

/-! ### Inversion and introduction rules for `generate_pair` -/

theorem generate_pair_similar_inv {g : StringGenerator} {len1 len2 : Int}
    {s s' : RState} {str1 str2 : List Char}
    (h : g.generate_pair len1 len2 true s = .ok ((str1, str2), s')) :
    ∃ s1 k s2, g.generate len1 s = .ok (str1, s1) ∧
      randint 1 (Int.fdiv len1 3) s1 = .ok (k, s2) ∧
      mutLoop g.alphabet k.toNat str1 s2 = .ok (str2, s') := by
  unfold StringGenerator.generate_pair at h
  split at h
  · simp at h
  · next str0 s1 heq1 =>
    split at h
    · split at h
      · simp at h
      · next k s2 heq2 =>
        split at h
        · simp at h
        · next str2' s3 heq3 =>
          simp only [Except.ok.injEq, Prod.mk.injEq] at h
          obtain ⟨⟨h1, h2⟩, h3⟩ := h
          subst h1; subst h2; subst h3
          exact ⟨s1, k, s2, heq1, heq2, heq3⟩
    · simp at *

theorem generate_pair_similar_eq {g : StringGenerator} {len1 len2 : Int}
    {s s1 s2 s3 : RState} {str1 str2 : List Char} {k : Int}
    (h1 : g.generate len1 s = .ok (str1, s1))
    (h2 : randint 1 (Int.fdiv len1 3) s1 = .ok (k, s2))
    (h3 : mutLoop g.alphabet k.toNat str1 s2 = .ok (str2, s3)) :
    g.generate_pair len1 len2 true s = .ok ((str1, str2), s3) := by
  unfold StringGenerator.generate_pair
  simp [h1, h2, h3]

theorem generate_pair_indep_inv {g : StringGenerator} {len1 len2 : Int}
    {s s' : RState} {str1 str2 : List Char}
    (h : g.generate_pair len1 len2 false s = .ok ((str1, str2), s')) :
    ∃ s1, g.generate len1 s = .ok (str1, s1) ∧
      g.generate len2 s1 = .ok (str2, s') := by
  unfold StringGenerator.generate_pair at h
  split at h
  · simp at h
  · next str0 s1 heq1 =>
    split at h
    · simp at *
    · split at h
      · simp at h
      · next str2' s2 heq2 =>
        simp only [Except.ok.injEq, Prod.mk.injEq] at h
        obtain ⟨⟨h1, h2⟩, h3⟩ := h
        subst h1; subst h2; subst h3
        exact ⟨s1, heq1, heq2⟩

theorem generate_pair_indep_eq {g : StringGenerator} {len1 len2 : Int}
    {s s1 s2 : RState} {str1 str2 : List Char}
    (h1 : g.generate len1 s = .ok (str1, s1))
    (h2 : g.generate len2 s1 = .ok (str2, s2)) :
    g.generate_pair len1 len2 false s = .ok ((str1, str2), s2) := by
  unfold StringGenerator.generate_pair
  simp [h1, h2]

/-! ### Claim C1: similarity bound of `generate_pair` -/

/-- C1: for every positive `len1` and `len2` and any alphabet, whenever
`generate_pair(len1, len2, similar=true)` returns a pair
`(str1, str2)`, the Hamming distance between `str1` and `str2` is at
most `max 1 (len1 // 3)` and `str2` has the same length as `str1`. -/
theorem similar_pair_hamming_le (a : Option (List Char)) (len1 len2 : Int)
    (_h1 : 0 < len1) (_h2 : 0 < len2) (s s' : RState) (str1 str2 : List Char)
    (hok : (StringGenerator.init a).generate_pair len1 len2 true s =
      .ok ((str1, str2), s')) :
    (hamming str1 str2 : Int) ≤ max 1 (Int.fdiv len1 3) ∧
    str2.length = str1.length := by
  obtain ⟨s1, k, s2, hgen, hrand, hmut⟩ := generate_pair_similar_inv hok
  obtain ⟨hk1, hk2⟩ := randint_ok_bounds hrand
  obtain ⟨hlen2, hham, _⟩ := mutLoop_ok hmut
  refine ⟨?_, hlen2⟩
  have h := hham str1
  rw [hamming_self] at h
  have hkt : ((k.toNat : Nat) : Int) = k := Int.toNat_of_nonneg (by omega)
  have h' : (hamming str1 str2 : Int) ≤ ((k.toNat : Nat) : Int) := by
    exact_mod_cast (by omega : hamming str1 str2 ≤ k.toNat)
  refine le_trans h' ?_
  rw [hkt]
  exact le_trans hk2 (le_max_right 1 _)

/-- Witness for C1 at `len1 = len2 = 3` on the all-zeros stream. -/
theorem similar_pair_hamming_le_witness :
    ((0 : Int) < 3 ∧ (0 : Int) < 3) ∧
    ((hamming ['A', 'A', 'A'] ['A', 'A', 'A'] : Int) ≤ max 1 (Int.fdiv 3 3) ∧
     (['A', 'A', 'A'] : List Char).length = (['A', 'A', 'A'] : List Char).length) :=
  ⟨⟨by decide, by decide⟩,
   similar_pair_hamming_le none 3 3 (by decide) (by decide) rs0 ⟨e0, 6⟩
     ['A', 'A', 'A'] ['A', 'A', 'A'] rfl⟩

/-! ### Claim C9: `similar = true` with `len1` in `{1, 2}` raises -/

/-- C9: for `len1` equal to 1 or 2 and any `len2`, the similar branch of
`generate_pair` fails before returning: `random.randint(1, len1 // 3)`
has an empty range (`len1 // 3 = 0`), so no string pair is produced. -/
theorem similar_pair_small_len_err (len1 len2 : Int) (a : Option (List Char))
    (s : RState) (h : len1 = 1 ∨ len1 = 2) :
    (StringGenerator.init a).generate_pair len1 len2 true s =
      .error "empty range for randrange()" := by
  obtain ⟨str1, s1, hgen, _⟩ :=
    generate_total (init_alphabet_ne_nil a) len1 s
  have hfd : Int.fdiv len1 3 = 0 := by
    rcases h with h | h <;> subst h <;> decide
  have herr : randint 1 (Int.fdiv len1 3) s1 =
      .error "empty range for randrange()" := by
    rw [hfd]
    exact randint_err (by decide) s1
  unfold StringGenerator.generate_pair
  simp [hgen, herr]

/-- Witness for C9 at `len1 = 1` on the all-zeros stream. -/
theorem similar_pair_small_len_err_witness :
    ((1 : Int) = 1 ∨ (1 : Int) = 2) ∧
    (StringGenerator.init none).generate_pair 1 1 true rs0 =
      .error "empty range for randrange()" :=
  ⟨Or.inl rfl, similar_pair_small_len_err 1 1 none rs0 (Or.inl rfl)⟩

/-! ### Claim C10: empty or missing alphabet silently defaults -/

/-- C10: constructing a `StringGenerator` with an empty alphabet list or
with no alphabet succeeds, the resulting alphabet is the default
`['A', 'B', 'C']`, and every string produced by `generate` and
`generate_pair` draws its symbols from that default alphabet. -/
theorem default_alphabet_on_empty (a : Option (List Char))
    (h : a = none ∨ a = some []) :
    (StringGenerator.init a).alphabet = ['A', 'B', 'C'] ∧
    (∀ (size : Int) (s s' : RState) (r : List Char),
      (StringGenerator.init a).generate size s = .ok (r, s') →
      ∀ c ∈ r, c ∈ (['A', 'B', 'C'] : List Char)) ∧
    (∀ (len1 len2 : Int) (sim : Bool) (s s' : RState)
      (str1 str2 : List Char),
      (StringGenerator.init a).generate_pair len1 len2 sim s =
        .ok ((str1, str2), s') →
      (∀ c ∈ str1, c ∈ (['A', 'B', 'C'] : List Char)) ∧
      (∀ c ∈ str2, c ∈ (['A', 'B', 'C'] : List Char))) := by
  have halpha : (StringGenerator.init a).alphabet = ['A', 'B', 'C'] := by
    rcases h with h | h <;> subst h <;> rfl
  refine ⟨halpha, ?_, ?_⟩
  · intro size s s' r hr
    have := (generate_ok hr).2
    rwa [halpha] at this
  · intro len1 len2 sim s s' str1 str2 hp
    cases sim with
    | true =>
      obtain ⟨s1, k, s2, hgen, _, hmut⟩ := generate_pair_similar_inv hp
      have hm1 : ∀ c ∈ str1, c ∈ (['A', 'B', 'C'] : List Char) := by
        have := (generate_ok hgen).2
        rwa [halpha] at this
      refine ⟨hm1, ?_⟩
      have := (mutLoop_ok hmut).2.2 (fun c => c ∈ (['A', 'B', 'C'] : List Char))
        hm1 (by rw [halpha]; exact fun c hc => hc)
      exact this
    | false =>
      obtain ⟨s1, hgen1, hgen2⟩ := generate_pair_indep_inv hp
      constructor
      · have := (generate_ok hgen1).2
        rwa [halpha] at this
      · have := (generate_ok hgen2).2
        rwa [halpha] at this

/-- Witness for C10 at `a = some []` (the empty alphabet list). -/
theorem default_alphabet_on_empty_witness :
    ((some ([] : List Char) : Option (List Char)) = none ∨
      (some ([] : List Char) : Option (List Char)) = some []) ∧
    ((StringGenerator.init (some [])).alphabet = ['A', 'B', 'C'] ∧
    (∀ (size : Int) (s s' : RState) (r : List Char),
      (StringGenerator.init (some [])).generate size s = .ok (r, s') →
      ∀ c ∈ r, c ∈ (['A', 'B', 'C'] : List Char)) ∧
    (∀ (len1 len2 : Int) (sim : Bool) (s s' : RState)
      (str1 str2 : List Char),
      (StringGenerator.init (some [])).generate_pair len1 len2 sim s =
        .ok ((str1, str2), s') →
      (∀ c ∈ str1, c ∈ (['A', 'B', 'C'] : List Char)) ∧
      (∀ c ∈ str2, c ∈ (['A', 'B', 'C'] : List Char)))) :=
  ⟨Or.inr rfl, default_alphabet_on_empty (some []) (Or.inr rfl)⟩

/-! ### Claim C2: the mutation-count draw -/

/-- Claim C2 as stated: for every positive `len1`, the similar branch
draws its mutation count `k` by `randint(1, max(1, len1 // 3))` — a
draw that always succeeds — performs exactly `k` mutation steps
(`mutLoop` run `k` times), and returns the resulting pair. -/
def claimC2 : Prop :=
  ∀ (len1 len2 : Int) (a : Option (List Char)) (s : RState), 0 < len1 →
    ∃ str1 s1 k s2 str2 s3,
      (StringGenerator.init a).generate len1 s = .ok (str1, s1) ∧
      randint 1 (max 1 (Int.fdiv len1 3)) s1 = .ok (k, s2) ∧
      mutLoop (StringGenerator.init a).alphabet k.toNat str1 s2 =
        .ok (str2, s3) ∧
      (StringGenerator.init a).generate_pair len1 len2 true s =
        .ok ((str1, str2), s3)

/-- Counterexample to C2: at `len1 = 1` the code draws
`randint(1, 1 // 3) = randint(1, 0)` — an empty range, not the claimed
`randint(1, max(1, len1 // 3))` — so `generate_pair` raises instead of
performing any mutation step. -/
theorem claimC2_false : ¬ claimC2 := by
  intro h
  obtain ⟨str1, s1, k, s2, str2, s3, _, _, _, hgp⟩ := h 1 1 none rs0 (by decide)
  rw [show (StringGenerator.init none).generate_pair 1 1 true rs0 =
      .error "empty range for randrange()" from rfl] at hgp
  exact Except.noConfusion hgp

/-- C2 amended: for `len1 ≥ 3` — exactly the lengths where
`len1 // 3 = max(1, len1 // 3)` — the mutation count `k` is drawn by
`randint(1, len1 // 3)`, satisfies `1 ≤ k ≤ len1 // 3`, exactly `k`
mutation steps are performed on a copy of `str1`, the pair is returned,
and every value in `{1, …, len1 // 3}` is drawn for a suitable entropy
stream (the draw is uniform over that range).  For `len1` in `{1, 2}`
the draw fails instead (see the `len1 // 3 = 0` theorem for C9). -/
theorem mutation_draw_amended (len1 len2 : Int) (a : Option (List Char))
    (s : RState) (h3 : 3 ≤ len1) :
    ∃ str1 s1 k s2 str2 s3,
      (StringGenerator.init a).generate len1 s = .ok (str1, s1) ∧
      randint 1 (Int.fdiv len1 3) s1 = .ok (k, s2) ∧
      1 ≤ k ∧ k ≤ Int.fdiv len1 3 ∧
      max 1 (Int.fdiv len1 3) = Int.fdiv len1 3 ∧
      mutLoop (StringGenerator.init a).alphabet k.toNat str1 s2 =
        .ok (str2, s3) ∧
      (StringGenerator.init a).generate_pair len1 len2 true s =
        .ok ((str1, str2), s3) ∧
      (∀ k', 1 ≤ k' → k' ≤ Int.fdiv len1 3 →
        ∃ t t', randint 1 (Int.fdiv len1 3) t = .ok (k', t')) := by
  have hfd : Int.fdiv len1 3 = len1 / 3 := Int.fdiv_eq_ediv _ (by norm_num)
  have hfd1 : 1 ≤ Int.fdiv len1 3 := by rw [hfd]; omega
  obtain ⟨str1, s1, hgen, hlen⟩ :=
    generate_total (init_alphabet_ne_nil a) len1 s
  obtain ⟨k, s2, hrand⟩ := randint_total hfd1 s1
  obtain ⟨hk1, hk2⟩ := randint_ok_bounds hrand
  have hstr1 : str1 ≠ [] := by
    intro hnil
    rw [hnil] at hlen
    simp at hlen
    omega
  obtain ⟨str2, s3, hmut⟩ :=
    mutLoop_total (init_alphabet_ne_nil a) k.toNat hstr1 s2
  refine ⟨str1, s1, k, s2, str2, s3, hgen, hrand, hk1, hk2, by omega, hmut,
    generate_pair_similar_eq hgen hrand hmut, ?_⟩
  intro k' hk1' hk2'
  exact randint_surj hk1' hk2'

/-- Witness for the amended C2 at `len1 = 3` on the all-zeros stream. -/
theorem mutation_draw_amended_witness :
    (3 : Int) ≤ 3 ∧
    ∃ str1 s1 k s2 str2 s3,
      (StringGenerator.init none).generate 3 rs0 = .ok (str1, s1) ∧
      randint 1 (Int.fdiv 3 3) s1 = .ok (k, s2) ∧
      1 ≤ k ∧ k ≤ Int.fdiv 3 3 ∧
      max 1 (Int.fdiv 3 3) = Int.fdiv 3 3 ∧
      mutLoop (StringGenerator.init none).alphabet k.toNat str1 s2 =
        .ok (str2, s3) ∧
      (StringGenerator.init none).generate_pair 3 5 true rs0 =
        .ok ((str1, str2), s3) ∧
      (∀ k', 1 ≤ k' → k' ≤ Int.fdiv 3 3 →
        ∃ t t', randint 1 (Int.fdiv 3 3) t = .ok (k', t')) :=
  ⟨by decide, mutation_draw_amended 3 5 none rs0 (by decide)⟩

/-! ### Claim C4: invalid-argument rejection -/

/-- Claim C4 as stated: `generate_pair(0, 5, false)` and
`generate_pair(5, -1, true)` fail with an invalid-argument error (no
pair is returned), and constructing a string generator with an empty
alphabet fails: it yields no usable artifact, i.e. either the empty
alphabet is kept or nothing can ever be generated from the result. -/
def claimC4 : Prop :=
  (∀ (a : Option (List Char)) (s : RState),
    ∃ e, (StringGenerator.init a).generate_pair 0 5 false s = .error e) ∧
  (∀ (a : Option (List Char)) (s : RState),
    ∃ e, (StringGenerator.init a).generate_pair 5 (-1) true s = .error e) ∧
  ((StringGenerator.init (some [])).alphabet = [] ∨
   ∀ (size : Int) (s s' : RState) (r : List Char),
     (StringGenerator.init (some [])).generate size s ≠ .ok (r, s'))

/-- Counterexample to C4: on the all-zeros stream,
`generate_pair(0, 5, false)` returns the pair `("", "AAAAA")` instead
of raising; no validation happens. -/
theorem claimC4_false : ¬ claimC4 := by
  intro h
  obtain ⟨e, he⟩ := h.1 none rs0
  rw [show (StringGenerator.init none).generate_pair 0 5 false rs0 =
      .ok (([], ['A', 'A', 'A', 'A', 'A']), ⟨e0, 5⟩) from rfl] at he
  exact Except.noConfusion he

/-- C4 amended: none of the three invocations is rejected.
`generate_pair(0, 5, false)` succeeds with an empty `str1` and a
5-symbol `str2`; `generate_pair(5, -1, true)` succeeds with two
5-symbol strings (`len2 = -1` is ignored by the similar branch); and
construction with an empty alphabet silently substitutes the default
alphabet `['A', 'B', 'C']`. -/
theorem invalid_args_accepted :
    (∀ (a : Option (List Char)) (s : RState),
      ∃ str1 str2 s',
        (StringGenerator.init a).generate_pair 0 5 false s =
          .ok ((str1, str2), s') ∧
        str1.length = 0 ∧ str2.length = 5) ∧
    (∀ (a : Option (List Char)) (s : RState),
      ∃ str1 str2 s',
        (StringGenerator.init a).generate_pair 5 (-1) true s =
          .ok ((str1, str2), s') ∧
        str1.length = 5 ∧ str2.length = 5) ∧
    (StringGenerator.init (some [])).alphabet = ['A', 'B', 'C'] := by
  refine ⟨?_, ?_, rfl⟩
  · intro a s
    obtain ⟨str1, s1, hgen1, hlen1⟩ :=
      generate_total (init_alphabet_ne_nil a) 0 s
    obtain ⟨str2, s2, hgen2, hlen2⟩ :=
      generate_total (init_alphabet_ne_nil a) 5 s1
    exact ⟨str1, str2, s2, generate_pair_indep_eq hgen1 hgen2, hlen1, hlen2⟩
  · intro a s
    obtain ⟨str1, s1, hgen, hlen⟩ :=
      generate_total (init_alphabet_ne_nil a) 5 s
    have hstr1 : str1 ≠ [] := by
      intro hnil
      rw [hnil] at hlen
      simp at hlen
    obtain ⟨k, s2, hrand⟩ := randint_total (by decide : (1 : Int) ≤ Int.fdiv 5 3) s1
    obtain ⟨str2, s3, hmut⟩ :=
      mutLoop_total (init_alphabet_ne_nil a) k.toNat hstr1 s2
    refine ⟨str1, str2, s3, generate_pair_similar_eq hgen hrand hmut, hlen, ?_⟩
    rw [(mutLoop_ok hmut).1, hlen]
    rfl

/-! ### Graph generator: loop invariants -/

/-- The weight contract of one generated edge: `1` when unweighted,
otherwise an integer in `[1, 10]`. -/
def weightOK (weighted : Bool) (x : Int) : Prop :=
  if weighted then 1 ≤ x ∧ x ≤ 10 else x = 1

theorem drawWeight_ok_val {w : Bool} {s s' : RState} {x : Int}
    (h : drawWeight w s = .ok (x, s')) : weightOK w x := by
  cases w with
  | false =>
    simp [drawWeight] at h
    simp [weightOK, ← h.1]
  | true =>
    simp only [drawWeight, if_true] at h
    exact randint_ok_bounds h

theorem innerLoop_ok {w : Bool} {i : Nat} :
    ∀ {js : List Nat} {acc acc' : List (Nat × Nat × Int)} {s s' : RState},
    innerLoop w i js acc s = .ok (acc', s') →
    ∃ ne, acc' = acc ++ ne ∧
      (∀ e ∈ ne, e.1 = i ∧ e.2.1 ∈ js ∧ weightOK w e.2.2) ∧
      (ne.map (fun e => e.2.1)).Sublist js := by
  intro js
  induction js with
  | nil =>
    intro acc acc' s s' h
    simp only [innerLoop, Except.ok.injEq, Prod.mk.injEq] at h
    exact ⟨[], by simp [h.1], by simp, List.Sublist.refl _⟩
  | cons j rest ih =>
    intro acc acc' s s' h
    simp only [innerLoop] at h
    split at h
    · split at h
      · simp at h
      · next x s2 heqw =>
        obtain ⟨ne, hacc, hprops, hsub⟩ := ih h
        refine ⟨(i, j, x) :: ne, by simp [hacc], ?_, ?_⟩
        · intro e he
          rcases List.mem_cons.mp he with he | he
          · subst he
            exact ⟨rfl, List.mem_cons_self _ _, drawWeight_ok_val heqw⟩
          · obtain ⟨h1, h2, h3⟩ := hprops e he
            exact ⟨h1, List.mem_cons_of_mem _ h2, h3⟩
        · simpa using List.Sublist.cons₂ j hsub
    · obtain ⟨ne, hacc, hprops, hsub⟩ := ih h
      refine ⟨ne, hacc, ?_, List.Sublist.cons j hsub⟩
      intro e he
      obtain ⟨h1, h2, h3⟩ := hprops e he
      exact ⟨h1, List.mem_cons_of_mem _ h2, h3⟩

theorem outerLoop_ok {w : Bool} {n : Nat} :
    ∀ {is : List Nat} {acc acc' : List (Nat × Nat × Int)} {s s' : RState},
    outerLoop w n is acc s = .ok (acc', s') →
    ∃ ne, acc' = acc ++ ne ∧
      (∀ e ∈ ne, e.1 ∈ is ∧ e.1 + 1 ≤ e.2.1 ∧ e.2.1 < n ∧ weightOK w e.2.2) ∧
      (is.Pairwise (fun x y => x ≠ y) →
        ne.Pairwise (fun e1 e2 => e1.1 ≠ e2.1 ∨ e1.2.1 ≠ e2.2.1)) := by
  intro is
  induction is with
  | nil =>
    intro acc acc' s s' h
    simp only [outerLoop, Except.ok.injEq, Prod.mk.injEq] at h
    exact ⟨[], by simp [h.1], by simp, fun _ => List.Pairwise.nil⟩
  | cons i rest ih =>
    intro acc acc' s s' h
    simp only [outerLoop] at h
    split at h
    · simp at h
    · next accmid smid heqin =>
      obtain ⟨block, haccmid, hblock, hsubin⟩ := innerLoop_ok heqin
      obtain ⟨ne2, hacc, hprops2, hpw2⟩ := ih h
      subst haccmid
      refine ⟨block ++ ne2, by simp [hacc], ?_, ?_⟩
      · intro e he
        rcases List.mem_append.mp he with he | he
        · obtain ⟨h1, h2, h3⟩ := hblock e he
          have hj := List.mem_range'_1.mp h2
          exact ⟨by simp [h1], by omega, by omega, h3⟩
        · obtain ⟨h1, h2, h3, h4⟩ := hprops2 e he
          exact ⟨List.mem_cons_of_mem _ h1, h2, h3, h4⟩
      · intro hnd
        have hihd := List.pairwise_cons.mp hnd
        rw [List.pairwise_append]
        refine ⟨?_, hpw2 hihd.2, ?_⟩
        · have hndjs : (block.map (fun e => e.2.1)).Nodup :=
            List.Sublist.nodup hsubin (List.nodup_range' _ _)
          have hpwv := List.pairwise_map.mp hndjs
          exact hpwv.imp (fun hne => Or.inr hne)
        · intro e1 he1 e2 he2
          have h1 := (hblock e1 he1).1
          have h2 := (hprops2 e2 he2).1
          exact Or.inl (by rw [h1]; exact hihd.1 _ h2)

theorem generate_graph_ok {g : GraphGenerator} {size : Int} {s s' : RState}
    {G : Graph} (h : g.generate size s = .ok (G, s')) :
    G.nodes = List.range size.toNat ∧ G.directed = g.directed ∧
    (∀ e ∈ G.edges,
      e.1 < e.2.1 ∧ e.2.1 < size.toNat ∧ weightOK g.weighted e.2.2) ∧
    G.edges.Pairwise (fun e1 e2 => e1.1 ≠ e2.1 ∨ e1.2.1 ≠ e2.2.1) := by
  unfold GraphGenerator.generate at h
  split at h
  · simp at h
  · next es sfin heq =>
    simp only [Except.ok.injEq, Prod.mk.injEq] at h
    obtain ⟨hG, _⟩ := h
    obtain ⟨ne, hacc, hprops, hpw⟩ := outerLoop_ok heq
    simp only [List.nil_append] at hacc
    subst hacc
    subst hG
    refine ⟨rfl, rfl, ?_, hpw (List.nodup_range _)⟩
    intro e he
    obtain ⟨_, h2, h3, h4⟩ := hprops e he
    exact ⟨by omega, h3, h4⟩

/-! ### Acyclicity from index-increasing edges -/

theorem isChain_lt {E : List (Nat × Nat × Int)}
    (hE : ∀ e ∈ E, e.1 < e.2.1) :
    ∀ (l : List Nat) (u : Nat), isChain E u l → ∀ v ∈ l, u < v := by
  intro l
  induction l with
  | nil =>
    intro u _ v hv
    simp at hv
  | cons x rest ih =>
    intro u hc v hv
    obtain ⟨⟨wgt, hw⟩, hrest⟩ := hc
    have hux : u < x := hE _ hw
    rcases List.mem_cons.mp hv with hveq | hv
    · exact hveq ▸ hux
    · exact lt_trans hux (ih x hrest v hv)

theorem no_cycle_of_increasing {E : List (Nat × Nat × Int)}
    (hE : ∀ e ∈ E, e.1 < e.2.1) : ¬ hasCycle E := by
  rintro ⟨u, l, hc⟩
  have := isChain_lt hE (l ++ [u]) u hc u (by simp)
  omega

/-! ### Claim C3: directed graphs are index-increasing DAGs -/

/-- C3: for a directed generator and `size ≥ 0`, every edge `(u, v)` of
the generated graph has `u < v`; hence no self-loops, no 2-cycles, no
duplicate edge on a pair of nodes, and no directed cycle at all (a DAG
consistent with the node index ordering). -/
theorem directed_graph_dag (g : GraphGenerator) (_hdir : g.directed = true)
    (size : Int) (_hsz : 0 ≤ size) (s s' : RState) (G : Graph)
    (hok : g.generate size s = .ok (G, s')) :
    (∀ e ∈ G.edges, e.1 < e.2.1) ∧
    (∀ e ∈ G.edges, e.1 ≠ e.2.1) ∧
    (¬ ∃ u v w1 w2, (u, v, w1) ∈ G.edges ∧ (v, u, w2) ∈ G.edges) ∧
    G.edges.Pairwise (fun e1 e2 => e1.1 ≠ e2.1 ∨ e1.2.1 ≠ e2.2.1) ∧
    ¬ hasCycle G.edges := by
  obtain ⟨_, _, hprops, hpw⟩ := generate_graph_ok hok
  have hlt : ∀ e ∈ G.edges, e.1 < e.2.1 := fun e he => (hprops e he).1
  refine ⟨hlt, fun e he => Nat.ne_of_lt (hlt e he), ?_, hpw,
    no_cycle_of_increasing hlt⟩
  rintro ⟨u, v, w1, w2, hm1, hm2⟩
  have huv : u < v := hlt _ hm1
  have hvu : v < u := hlt _ hm2
  omega

/-- The graph produced by the directed weighted generator at `size = 3`
on the all-zeros stream: every sparsity trial succeeds and every weight
draw yields 1. -/
def G3 : Graph := ⟨[0, 1, 2], [(0, 1, 1), (0, 2, 1), (1, 2, 1)], true⟩

/-- Witness for C3 at `size = 3` on the all-zeros stream. -/
theorem directed_graph_dag_witness :
    ((⟨true, true⟩ : GraphGenerator).directed = true ∧ (0 : Int) ≤ 3) ∧
    ((∀ e ∈ G3.edges, e.1 < e.2.1) ∧
     (∀ e ∈ G3.edges, e.1 ≠ e.2.1) ∧
     (¬ ∃ u v w1 w2, (u, v, w1) ∈ G3.edges ∧ (v, u, w2) ∈ G3.edges) ∧
     G3.edges.Pairwise (fun e1 e2 => e1.1 ≠ e2.1 ∨ e1.2.1 ≠ e2.2.1) ∧
     ¬ hasCycle G3.edges) :=
  ⟨⟨rfl, by decide⟩,
   directed_graph_dag ⟨true, true⟩ rfl 3 (by decide) rs0 ⟨e0, 6⟩ G3 rfl⟩

/-! ### Claim C5: negative graph size -/

/-- Claim C5 as stated: for every negative `size`, `generate(size)`
rejects the call with an error instead of returning a graph. -/
def claimC5 : Prop :=
  ∀ (g : GraphGenerator) (size : Int) (s : RState), size < 0 →
    ∃ e, g.generate size s = .error e

/-- Counterexample to C5: `generate(-1)` returns the empty graph (no
validation happens; `range` of a negative bound is simply empty). -/
theorem claimC5_false : ¬ claimC5 := by
  intro h
  obtain ⟨e, he⟩ := h ⟨true, true⟩ (-1) rs0 (by decide)
  rw [show GraphGenerator.generate ⟨true, true⟩ (-1) rs0 =
      .ok (⟨[], [], true⟩, rs0) from rfl] at he
  exact Except.noConfusion he

/-- C5 amended: for every negative `size`, `generate(size)` succeeds
and returns the empty graph (no nodes, no edges) without consuming any
entropy, exactly as for `size = 0`. -/
theorem negative_size_empty_graph (g : GraphGenerator) (size : Int)
    (hneg : size < 0) (s : RState) :
    g.generate size s = .ok (⟨[], [], g.directed⟩, s) := by
  have hn : size.toNat = 0 := by omega
  unfold GraphGenerator.generate
  rw [hn]
  rfl

/-- Witness for the amended C5 at `size = -2`. -/
theorem negative_size_empty_graph_witness :
    (-2 : Int) < 0 ∧
    GraphGenerator.generate ⟨false, true⟩ (-2) rs0 = .ok (⟨[], [], false⟩, rs0) :=
  ⟨by decide, negative_size_empty_graph ⟨false, true⟩ (-2) (by decide) rs0⟩

/-! ### Claim C6: node set of the generated graph -/

/-- C6: for every `size ≥ 0` and any configuration, the generated graph
has exactly `size` nodes and its node set is exactly `{0, …, size-1}`. -/
theorem graph_nodes_exact (g : GraphGenerator) (size : Int) (hsz : 0 ≤ size)
    (s s' : RState) (G : Graph) (hok : g.generate size s = .ok (G, s')) :
    (G.nodes.length : Int) = size ∧ G.nodes = List.range size.toNat ∧
    (∀ v : Nat, v ∈ G.nodes ↔ (v : Int) < size) := by
  obtain ⟨hnodes, _, _, _⟩ := generate_graph_ok hok
  refine ⟨?_, hnodes, ?_⟩
  · rw [hnodes, List.length_range]
    omega
  · intro v
    rw [hnodes, List.mem_range]
    omega

/-- The graph produced by the undirected weighted generator at
`size = 2` on the all-zeros stream. -/
def G6 : Graph := ⟨[0, 1], [(0, 1, 1)], false⟩

/-- Witness for C6 at `size = 2` with the undirected configuration. -/
theorem graph_nodes_exact_witness :
    (0 : Int) ≤ 2 ∧
    ((G6.nodes.length : Int) = 2 ∧ G6.nodes = List.range (Int.toNat 2) ∧
     (∀ v : Nat, v ∈ G6.nodes ↔ (v : Int) < 2)) :=
  ⟨by decide, graph_nodes_exact ⟨false, true⟩ 2 (by decide) rs0 ⟨e0, 2⟩ G6 rfl⟩

/-! ### Claim C7: edge-weight bounds -/

/-- C7: every edge weight of a generated graph is `1` when the
generator is unweighted, and lies in `[1, 10]` when it is weighted. -/
theorem graph_edge_weights (g : GraphGenerator) (size : Int)
    (_hsz : 0 ≤ size) (s s' : RState) (G : Graph)
    (hok : g.generate size s = .ok (G, s')) :
    ∀ e ∈ G.edges,
      (g.weighted = false → e.2.2 = 1) ∧
      (g.weighted = true → 1 ≤ e.2.2 ∧ e.2.2 ≤ 10) := by
  obtain ⟨_, _, hprops, _⟩ := generate_graph_ok hok
  intro e he
  have hw := (hprops e he).2.2
  constructor
  · intro hfalse
    rw [hfalse] at hw
    simpa [weightOK] using hw
  · intro htrue
    rw [htrue] at hw
    simpa [weightOK] using hw

/-- The graph produced by the directed unweighted generator at
`size = 2` on the all-zeros stream (its weight is the constant 1, with
no entropy consumed for it). -/
def G7 : Graph := ⟨[0, 1], [(0, 1, 1)], true⟩

/-- Witness for C7 at `size = 2` with the unweighted configuration. -/
theorem graph_edge_weights_witness :
    (0 : Int) ≤ 2 ∧
    ∀ e ∈ G7.edges,
      ((⟨true, false⟩ : GraphGenerator).weighted = false → e.2.2 = 1) ∧
      ((⟨true, false⟩ : GraphGenerator).weighted = true →
        1 ≤ e.2.2 ∧ e.2.2 ≤ 10) :=
  ⟨by decide, graph_edge_weights ⟨true, false⟩ 2 (by decide) rs0 ⟨e0, 1⟩ G7 rfl⟩

/-! ### Claim C8: determinism under a fixed entropy seed -/

/-- C8: two `generate` calls with the same configuration, size and
entropy state return the same result — in particular identical edge
sets and identical weights.  The calls may even go through two distinct
generator instances as long as their configurations agree. -/
theorem graph_deterministic (g1 g2 : GraphGenerator) (size : Int)
    (s : RState) (hd : g1.directed = g2.directed)
    (hw : g1.weighted = g2.weighted) :
    g1.generate size s = g2.generate size s := by
  obtain ⟨d1, w1⟩ := g1
  obtain ⟨d2, w2⟩ := g2
  dsimp only at hd hw
  subst hd
  subst hw
  rfl

/-- Witness for C8: the directed weighted configuration at `size = 3`
on the all-zeros stream. -/
theorem graph_deterministic_witness :
    ((⟨true, true⟩ : GraphGenerator).directed =
      (⟨true, true⟩ : GraphGenerator).directed ∧
     (⟨true, true⟩ : GraphGenerator).weighted =
      (⟨true, true⟩ : GraphGenerator).weighted) ∧
    GraphGenerator.generate ⟨true, true⟩ 3 rs0 =
      GraphGenerator.generate ⟨true, true⟩ 3 rs0 :=
  ⟨⟨rfl, rfl⟩, graph_deterministic ⟨true, true⟩ ⟨true, true⟩ 3 rs0 rfl rfl⟩
